import Mathlib

/-!
Verification of the `05-objects-tasks.js` module: the `Rectangle` constructor,
the JSON bridge (`getJSON` / `fromJSON`), and the CSS selector builder
(`Select` class and the `cssSelectorBuilder` facade).

Shallow embedding conventions:
* JS strings are Lean `String`; JS string truthiness (`if (s)`) is `s ≠ ""`.
* JS arrays of strings are Lean `List String`.
* A JS method that can `throw` is embedded as `Except String _`, carrying the
  thrown error message.
* The facade's single mutable `selector` property is passed as explicit state
  of type `Option String` (`none` models the JS `undefined`).
-/

/-- Error message thrown by the singularity (duplicate element/id/pseudo-element)
check in `Select`. -/
def dupMsg : String :=
  "Element, id and pseudo-element should not occur more then one time inside the selector"

/-- Error message thrown by the ordering check in `Select`. -/
def orderMsg : String :=
  "Selector parts should be arranged in the following order: element, id, class, attribute, pseudo-class, pseudo-element"

/-- State of one `Select` instance: the six fragment slots of the constructor,
plus the `selector` property that only `Select.combine` ever assigns
(absent, i.e. `undefined`, until then). -/
structure Select where
  element_prop : String
  id_prop : String
  class_prop : List String
  attr_prop : List String
  pseudoClass_prop : List String
  pseudoElement_prop : String
  selector : Option String
deriving Repr, DecidableEq

/-- The `Select` constructor: dispatches on the punctuation prefix of the
seed string to decide which slot it fills. -/
def Select.new (element : String) : Select :=
  let empty : Select := ⟨"", "", [], [], [], "", none⟩
  if element.take 1 = "#" then { empty with id_prop := element }
  else if element.take 2 = "::" then { empty with pseudoElement_prop := element }
  else if element.take 1 = "." then { empty with class_prop := [element] }
  else if element.take 1 = "[" then { empty with attr_prop := [element] }
  else if element.take 1 = ":" then { empty with pseudoClass_prop := [element] }
  else { empty with element_prop := element }

/-- `Select.prototype.stringify`: concatenation of the stored fragments. -/
def Select.stringify (s : Select) : String :=
  s.element_prop ++ s.id_prop ++ String.join s.class_prop
    ++ String.join s.attr_prop ++ String.join s.pseudoClass_prop
    ++ s.pseudoElement_prop

/-- `Select.prototype.element`: in the source this method takes NO parameter;
it runs the duplicate check and then the ordering check, and when both pass it
falls off the end of the function body — it assigns nothing and returns
`undefined` (here `Unit`) instead of the instance. -/
def Select.element (s : Select) : Except String Unit :=
  if s.element_prop ≠ "" then .error dupMsg
  else if s.id_prop ≠ "" ∨ s.class_prop ≠ [] ∨ s.attr_prop ≠ []
      ∨ s.pseudoClass_prop ≠ [] ∨ s.pseudoElement_prop ≠ "" then .error orderMsg
  else .ok ()

/-- `Select.prototype.id`. -/
def Select.id (s : Select) (value : String) : Except String Select :=
  if s.id_prop ≠ "" then .error dupMsg
  else if s.class_prop ≠ [] ∨ s.attr_prop ≠ []
      ∨ s.pseudoClass_prop ≠ [] ∨ s.pseudoElement_prop ≠ "" then .error orderMsg
  else .ok { s with id_prop := "#" ++ value }

/-- `Select.prototype.class` (named `class_` because `class` is a Lean keyword). -/
def Select.class_ (s : Select) (value : String) : Except String Select :=
  if s.attr_prop ≠ [] ∨ s.pseudoClass_prop ≠ [] ∨ s.pseudoElement_prop ≠ "" then
    .error orderMsg
  else .ok { s with class_prop := s.class_prop ++ ["." ++ value] }

/-- `Select.prototype.attr`. -/
def Select.attr (s : Select) (value : String) : Except String Select :=
  if s.pseudoClass_prop ≠ [] ∨ s.pseudoElement_prop ≠ "" then .error orderMsg
  else .ok { s with attr_prop := s.attr_prop ++ ["[" ++ value ++ "]"] }

/-- `Select.prototype.pseudoClass`. -/
def Select.pseudoClass (s : Select) (value : String) : Except String Select :=
  if s.pseudoElement_prop ≠ "" then .error orderMsg
  else .ok { s with pseudoClass_prop := s.pseudoClass_prop ++ [":" ++ value] }

/-- `Select.prototype.pseudoElement`. -/
def Select.pseudoElement (s : Select) (value : String) : Except String Select :=
  if s.pseudoElement_prop ≠ "" then .error dupMsg
  else .ok { s with pseudoElement_prop := "::" ++ value }

/-- `Select.prototype.combine`: stringifies both operands, then appends the
joined string onto the instance's own `selector` property when that property
is already a non-empty string, and assigns it fresh otherwise. -/
def Select.combine (s : Select) (selector1 : Select) (combinator : String)
    (selector2 : Select) : Select :=
  let sel1 := selector1.stringify
  let sel2 := selector2.stringify
  let joined := sel1 ++ " " ++ combinator ++ " " ++ sel2
  let old := s.selector.getD ""
  { s with selector := some (if old ≠ "" then old ++ joined else joined) }

/-- The six fragment kinds, in the fixed order the spec's ordering invariant
refers to. -/
inductive FragKind where
  | element | id | cls | attrK | pseudoCls | pseudoElem
deriving Repr, DecidableEq

/-- Position of a fragment kind in the fixed order
element, id, class, attribute, pseudo-class, pseudo-element. -/
def FragKind.rank : FragKind → Nat
  | .element => 0
  | .id => 1
  | .cls => 2
  | .attrK => 3
  | .pseudoCls => 4
  | .pseudoElem => 5

/-- All six fragment kinds. -/
def FragKind.all : List FragKind :=
  [.element, .id, .cls, .attrK, .pseudoCls, .pseudoElem]

/-- Whether a fragment of the given kind has been set on the instance
(JS truthiness of the corresponding slot). -/
def kindSet (s : Select) : FragKind → Bool
  | .element => s.element_prop != ""
  | .id => s.id_prop != ""
  | .cls => !s.class_prop.isEmpty
  | .attrK => !s.attr_prop.isEmpty
  | .pseudoCls => !s.pseudoClass_prop.isEmpty
  | .pseudoElem => s.pseudoElement_prop != ""

/-- Whether some fragment of a kind strictly later in the fixed order than `k`
has already been set on `s`. -/
def laterSet (s : Select) (k : FragKind) : Bool :=
  FragKind.all.any fun j => decide (k.rank < j.rank) && kindSet s j

/-- Facade entry `cssSelectorBuilder.element`. -/
def cssSelectorBuilder.element (value : String) : Select := Select.new value

/-- Facade entry `cssSelectorBuilder.id`. -/
def cssSelectorBuilder.id (value : String) : Select := Select.new ("#" ++ value)

/-- Facade entry `cssSelectorBuilder.class` (`class` is a Lean keyword). -/
def cssSelectorBuilder.class_ (value : String) : Select := Select.new ("." ++ value)

/-- Facade entry `cssSelectorBuilder.attr`. -/
def cssSelectorBuilder.attr (value : String) : Select :=
  Select.new ("[" ++ value ++ "]")

/-- Facade entry `cssSelectorBuilder.pseudoClass`. -/
def cssSelectorBuilder.pseudoClass (value : String) : Select :=
  Select.new (":" ++ value)

/-- Facade entry `cssSelectorBuilder.pseudoElement`. -/
def cssSelectorBuilder.pseudoElement (value : String) : Select :=
  Select.new ("::" ++ value)

/-- A value on which `cssSelectorBuilder.combine` can call `.stringify()`:
either a `Select` instance or the shared facade object itself (whose
`stringify` reads the facade's mutable `selector` property). -/
inductive SelectorVal where
  | sel : Select → SelectorVal
  | facade : SelectorVal
deriving Repr, DecidableEq

/-- `stringify()` of a `SelectorVal`, given the facade's current `selector`
state. Calling it on the facade before any combine reads `undefined`, which a
JS template literal renders as the string "undefined". -/
def stringifyVal (st : Option String) : SelectorVal → String
  | .sel s => s.stringify
  | .facade => st.getD "undefined"

/-- `cssSelectorBuilder.combine`: stringifies both operands with the current
facade state, overwrites the facade's `selector` with the joined string, and
returns the facade object itself. The result is the new state paired with the
returned value. -/
def cssSelectorBuilder.combine (st : Option String) (selector1 : SelectorVal)
    (combinator : String) (selector2 : SelectorVal) :
    Option String × SelectorVal :=
  let sel1 := stringifyVal st selector1
  let sel2 := stringifyVal st selector2
  (some (sel1 ++ " " ++ combinator ++ " " ++ sel2), .facade)

/-- `cssSelectorBuilder.stringify`: returns the facade's `selector` property. -/
def cssSelectorBuilder.stringify (st : Option String) : Option String := st

/-- The `Rectangle` constructor: stores `width` and `height`. The element type
is left arbitrary because the source performs no validation of its inputs. -/
structure Rectangle (α : Type) where
  width : α
  height : α
deriving Repr, DecidableEq

/-- `new Rectangle(width, height)`. -/
def Rectangle.new {α : Type} (width height : α) : Rectangle α :=
  { width := width, height := height }

/-- The `getArea` closure: `() => this.height * this.width`, recomputed from
the instance's current fields at each call. -/
def Rectangle.getArea {α : Type} [Mul α] (r : Rectangle α) : α :=
  r.height * r.width

/-! ## Helper definitions and lemmas for the builder theorems -/

/-- Chain of repeated `.class(...)` calls, one per value in the list, stopping
at the first thrown error. -/
def applyClasses (s : Select) : List String → Except String Select
  | [] => .ok s
  | c :: cs =>
    match Select.class_ s c with
    | .error e => .error e
    | .ok s2 => applyClasses s2 cs

/-- Chain of repeated `.attr(...)` calls. -/
def applyAttrs (s : Select) : List String → Except String Select
  | [] => .ok s
  | a :: as_ =>
    match Select.attr s a with
    | .error e => .error e
    | .ok s2 => applyAttrs s2 as_

/-- Chain of repeated `.pseudoClass(...)` calls. -/
def applyPseudoClasses (s : Select) : List String → Except String Select
  | [] => .ok s
  | p :: ps =>
    match Select.pseudoClass s p with
    | .error e => .error e
    | .ok s2 => applyPseudoClasses s2 ps

theorem applyClasses_ok (cs : List String) (s : Select)
    (ha : s.attr_prop = []) (hp : s.pseudoClass_prop = [])
    (he : s.pseudoElement_prop = "") :
    applyClasses s cs
      = .ok { s with class_prop := s.class_prop ++ cs.map (fun c => "." ++ c) } := by
  induction cs generalizing s with
  | nil => simp [applyClasses]
  | cons c cs ih =>
      rw [applyClasses,
        show Select.class_ s c
            = .ok { s with class_prop := s.class_prop ++ ["." ++ c] } by
          simp [Select.class_, ha, hp, he]]
      simpa using ih { s with class_prop := s.class_prop ++ ["." ++ c] } ha hp he

theorem applyAttrs_ok (as_ : List String) (s : Select)
    (hp : s.pseudoClass_prop = []) (he : s.pseudoElement_prop = "") :
    applyAttrs s as_
      = .ok { s with attr_prop := s.attr_prop ++ as_.map (fun a => "[" ++ a ++ "]") } := by
  induction as_ generalizing s with
  | nil => simp [applyAttrs]
  | cons a as_ ih =>
      rw [applyAttrs,
        show Select.attr s a
            = .ok { s with attr_prop := s.attr_prop ++ ["[" ++ a ++ "]"] } by
          simp [Select.attr, hp, he]]
      simpa using ih { s with attr_prop := s.attr_prop ++ ["[" ++ a ++ "]"] } hp he

theorem applyPseudoClasses_ok (ps : List String) (s : Select)
    (he : s.pseudoElement_prop = "") :
    applyPseudoClasses s ps
      = .ok { s with pseudoClass_prop := s.pseudoClass_prop ++ ps.map (fun p => ":" ++ p) } := by
  induction ps generalizing s with
  | nil => simp [applyPseudoClasses]
  | cons p ps ih =>
      rw [applyPseudoClasses,
        show Select.pseudoClass s p
            = .ok { s with pseudoClass_prop := s.pseudoClass_prop ++ [":" ++ p] } by
          simp [Select.pseudoClass, he]]
      simpa using ih { s with pseudoClass_prop := s.pseudoClass_prop ++ [":" ++ p] } he

/-! ## Claim theorems for the selector builder -/

/-- C1: evaluation at the failing input. On the instance built from the empty
seed string every slot is unset, so both the singularity check and the
ordering check of `Select.prototype.element` pass; the method then returns
`undefined` (embedded as `Unit`) without having appended the fragment — it
does not return the instance, so the claim's append-and-chain contract fails
for the `element` operation. -/
theorem select_element_appends_nothing :
    Select.element (cssSelectorBuilder.element "") = Except.ok ()
      ∧ ∀ k, kindSet (cssSelectorBuilder.element "") k = false := by
  refine ⟨rfl, fun k => ?_⟩
  cases k <;> rfl

/-- C4: `stringify()` on a builder chain whose checks all pass returns exactly
the concatenation, in fixed order, of the element name, `#` + id, each class
prefixed with `.` in insertion order, each attribute wrapped in `[` and `]` in
insertion order, each pseudo-class prefixed with `:` in insertion order, and
`::` + pseudo-element, with no other separators; including the spec's two
concrete examples. The hypotheses only say the element seed carries no
punctuation prefix (the spec's "bare value" precondition). -/
theorem stringify_fixed_order_concat :
    (∀ (e i pe : String) (cs as_ ps : List String),
      e.take 1 ≠ "#" → e.take 2 ≠ "::" → e.take 1 ≠ "." →
      e.take 1 ≠ "[" → e.take 1 ≠ ":" →
      (((cssSelectorBuilder.element e).id i).bind (fun s => applyClasses s cs)
        |>.bind (fun s => applyAttrs s as_)
        |>.bind (fun s => applyPseudoClasses s ps)
        |>.bind (fun s => s.pseudoElement pe)
        |>.map Select.stringify)
      = .ok (e ++ ("#" ++ i) ++ String.join (cs.map (fun c => "." ++ c))
          ++ String.join (as_.map (fun a => "[" ++ a ++ "]"))
          ++ String.join (ps.map (fun p => ":" ++ p)) ++ ("::" ++ pe)))
    ∧ (((cssSelectorBuilder.id "main").class_ "container").bind
          (fun s => s.class_ "editable") |>.map Select.stringify)
        = .ok "#main.container.editable"
    ∧ (((cssSelectorBuilder.element "a").attr "href$=\".png\"").bind
          (fun s => s.pseudoClass "focus") |>.map Select.stringify)
        = .ok "a[href$=\".png\"]:focus" := by
  refine ⟨?_, rfl, rfl⟩
  intro e i pe cs as_ ps h1 h2 h3 h4 h5
  have hnew : cssSelectorBuilder.element e = ⟨e, "", [], [], [], "", none⟩ := by
    simp [cssSelectorBuilder.element, Select.new, h1, h2, h3, h4, h5]
  rw [hnew]
  rw [show Select.id ⟨e, "", [], [], [], "", none⟩ i
        = .ok ⟨e, "#" ++ i, [], [], [], "", none⟩ by simp [Select.id]]
  simp only [Except.bind]
  rw [applyClasses_ok cs ⟨e, "#" ++ i, [], [], [], "", none⟩ rfl rfl rfl]
  simp only [Except.bind]
  rw [applyAttrs_ok as_ _ rfl rfl]
  simp only [Except.bind]
  rw [applyPseudoClasses_ok ps _ rfl]
  simp only [Except.bind]
  simp [Select.pseudoElement, Select.stringify, Except.map, String.append_assoc]

/-- Witness for C4 at a concrete chain. -/
theorem stringify_fixed_order_concat_witness :
    (((cssSelectorBuilder.element "a").id "b").bind
        (fun s => applyClasses s ["u", "v"])
      |>.bind (fun s => applyAttrs s ["w"])
      |>.bind (fun s => applyPseudoClasses s ["q"])
      |>.bind (fun s => s.pseudoElement "z")
      |>.map Select.stringify)
    = .ok ("a" ++ ("#" ++ "b")
        ++ String.join ((["u", "v"] : List String).map (fun c => "." ++ c))
        ++ String.join ((["w"] : List String).map (fun a => "[" ++ a ++ "]"))
        ++ String.join ((["q"] : List String).map (fun p => ":" ++ p))
        ++ ("::" ++ "z")) :=
  stringify_fixed_order_concat.1 "a" "b" "z" ["u", "v"] ["w"] ["q"]
    (by decide) (by decide) (by decide) (by decide) (by decide)

/-- C5: appending a fragment when a fragment of a kind strictly later in the
fixed order is already set raises the out-of-order error at that call (for the
singular kinds element and id, provided the duplicate check — which the spec
runs first — passes); in particular `.class('x')` after `.attr('y')` raises
it. The `pseudoElement` kind has no later kind, so no case arises for it. -/
theorem out_of_order_append_raises_order_error (s : Select) (v : String) :
    (laterSet s .element = true → kindSet s .element = false →
        Select.element s = .error orderMsg)
    ∧ (laterSet s .id = true → kindSet s .id = false →
        Select.id s v = .error orderMsg)
    ∧ (laterSet s .cls = true → Select.class_ s v = .error orderMsg)
    ∧ (laterSet s .attrK = true → Select.attr s v = .error orderMsg)
    ∧ (laterSet s .pseudoCls = true → Select.pseudoClass s v = .error orderMsg)
    ∧ Select.class_ (cssSelectorBuilder.attr "y") "x" = .error orderMsg := by
  refine ⟨?_, ?_, ?_, ?_, ?_, rfl⟩ <;> intro h <;>
    first
    | (intro hk
       simp [laterSet, FragKind.all, FragKind.rank, kindSet] at h hk
       simp [Select.element, Select.id, hk, h])
    | (simp [laterSet, FragKind.all, FragKind.rank, kindSet] at h
       simp [Select.class_, Select.attr, Select.pseudoClass, h])

/-- Witness for C5: calling `.id(...)` on an instance that already holds a
class raises the out-of-order error. -/
theorem out_of_order_append_raises_order_error_witness :
    Select.id (cssSelectorBuilder.class_ "c") "x" = .error orderMsg :=
  (out_of_order_append_raises_order_error (cssSelectorBuilder.class_ "c") "x").2.1
    (by decide) (by decide)

/-- C6: a second assignment of any singular kind (element, id, pseudo-element)
raises the duplicate-singular error at that call; no hypothesis about the
other slots is needed, because the singularity check runs before the ordering
check. In particular `.id('a')` twice raises it. -/
theorem duplicate_singular_raises_dup_error (s : Select) (v : String) :
    (kindSet s .element = true → Select.element s = .error dupMsg)
    ∧ (kindSet s .id = true → Select.id s v = .error dupMsg)
    ∧ (kindSet s .pseudoElem = true → Select.pseudoElement s v = .error dupMsg)
    ∧ Select.id (cssSelectorBuilder.id "a") "a" = .error dupMsg := by
  refine ⟨?_, ?_, ?_, rfl⟩ <;> intro h <;>
    simp [kindSet] at h <;>
    simp [Select.element, Select.id, Select.pseudoElement, h]

/-- Witness for C6: a second `.pseudoElement(...)` raises the duplicate error. -/
theorem duplicate_singular_raises_dup_error_witness :
    Select.pseudoElement (cssSelectorBuilder.pseudoElement "p") "q"
      = .error dupMsg :=
  (duplicate_singular_raises_dup_error (cssSelectorBuilder.pseudoElement "p") "q").2.2.1
    (by decide)

/-- C7: `combine(A, t, B)` stringifies both operands and the combined result's
`stringify()` returns exactly A's string, a space, the token verbatim (no
validation), a space, and B's string; in particular
`combine(builder.element('div'), '+', builder.element('span')).stringify()`
is `"div + span"`. -/
theorem combine_joins_with_single_spaces :
    (∀ (st : Option String) (A B : Select) (t : String),
      stringifyVal (cssSelectorBuilder.combine st (.sel A) t (.sel B)).1
          (cssSelectorBuilder.combine st (.sel A) t (.sel B)).2
        = A.stringify ++ " " ++ t ++ " " ++ B.stringify)
    ∧ stringifyVal
        (cssSelectorBuilder.combine none (.sel (cssSelectorBuilder.element "div"))
          "+" (.sel (cssSelectorBuilder.element "span"))).1
        (cssSelectorBuilder.combine none (.sel (cssSelectorBuilder.element "div"))
          "+" (.sel (cssSelectorBuilder.element "span"))).2
      = "div + span" :=
  ⟨fun _ _ _ _ => rfl, rfl⟩

/-- C8: combining the result of `combine(A, t1, B)` (the facade, carrying the
updated state) with a third selector C under token t2 yields a single
flattened string with both tokens in left-to-right order. -/
theorem combine_nested_flattens_left_to_right (st0 : Option String)
    (A B C : Select) (t1 t2 : String) :
    (let st1 := (cssSelectorBuilder.combine st0 (.sel A) t1 (.sel B)).1
     let res := cssSelectorBuilder.combine st1 .facade t2 (.sel C)
     stringifyVal res.1 res.2)
    = A.stringify ++ " " ++ t1 ++ " " ++ B.stringify
        ++ " " ++ t2 ++ " " ++ C.stringify := rfl

/-- C9: the `Rectangle` constructor stores `width` and `height` unchanged and
`getArea` recomputes `height * width` from the instance; the element type is
arbitrary because the source validates nothing. -/
theorem rectangle_fields_and_area {α : Type} [Mul α] (w h : α) :
    (Rectangle.new w h).width = w ∧ (Rectangle.new w h).height = h
      ∧ (Rectangle.new w h).getArea = h * w :=
  ⟨rfl, rfl, rfl⟩

/-- C10: every `cssSelectorBuilder.combine` call returns the shared facade
object itself and overwrites the facade's single `selector` slot; hence after
a later combine, `stringify()` on the result of an earlier combine reads the
later combine's string instead of the earlier one's. -/
theorem combine_returns_shared_facade_and_aliases :
    (∀ (st : Option String) (a b : SelectorVal) (t : String),
      (cssSelectorBuilder.combine st a t b).2 = SelectorVal.facade
        ∧ (cssSelectorBuilder.combine st a t b).1
          = some (stringifyVal st a ++ " " ++ t ++ " " ++ stringifyVal st b))
    ∧ (let c1 := cssSelectorBuilder.combine none
          (.sel (cssSelectorBuilder.element "a")) ">"
          (.sel (cssSelectorBuilder.element "b"))
       let c2 := cssSelectorBuilder.combine c1.1
          (.sel (cssSelectorBuilder.element "c")) "+"
          (.sel (cssSelectorBuilder.element "d"))
       stringifyVal c1.1 c1.2 = "a > b"
         ∧ stringifyVal c2.1 c1.2 = "c + d"
         ∧ stringifyVal c2.1 c1.2 ≠ stringifyVal c1.1 c1.2) := by
  exact ⟨fun _ _ _ _ => ⟨rfl, rfl⟩, rfl, rfl, by decide⟩

/-! ## JSON bridge

`getJSON` is `JSON.stringify` and `fromJSON` is `JSON.parse` followed by
`Object.setPrototypeOf`. The two runtime builtins are embedded here over a
structural value type `JsonValue`: a whitespace-free serializer and a
recursive-descent parser (fuelled, with the input length as fuel). The model
restricts JSON numbers to integers and strings to ones needing no escapes;
the repository's claims use neither floats nor escape sequences. -/

/-- Structural JSON values: the plain data `JSON.parse` can produce. -/
inductive JsonValue where
  | null : JsonValue
  | bool : Bool → JsonValue
  | num : Int → JsonValue
  | str : String → JsonValue
  | arr : List JsonValue → JsonValue
  | obj : List (String × JsonValue) → JsonValue
deriving Repr

/-- The decimal digit character for `n` (defined for `n ≤ 9`; clamps at 9). -/
def digitChar (n : Nat) : Char :=
  match n with
  | 0 => '0' | 1 => '1' | 2 => '2' | 3 => '3' | 4 => '4'
  | 5 => '5' | 6 => '6' | 7 => '7' | 8 => '8' | _ => '9'

/-- Decimal digits of `n`, least significant first (empty for 0). -/
def natDigitsRev (n : Nat) : List Char :=
  if h : n = 0 then []
  else digitChar (n % 10) :: natDigitsRev (n / 10)
termination_by n
decreasing_by exact Nat.div_lt_self (Nat.pos_of_ne_zero h) (by decide)

/-- Decimal notation of a natural number. -/
def natToChars (n : Nat) : List Char :=
  if n = 0 then ['0'] else (natDigitsRev n).reverse

/-- Decimal notation of an integer, as `JSON.stringify` prints it. -/
def intToChars (i : Int) : List Char :=
  if i < 0 then '-' :: natToChars i.natAbs else natToChars i.natAbs

mutual

/-- Characters of the `JSON.stringify` encoding: no whitespace, object keys
in stored order, strings quoted verbatim (the escape-free restriction). -/
def serChars : JsonValue → List Char
  | .null => ['n', 'u', 'l', 'l']
  | .bool b => if b then ['t', 'r', 'u', 'e'] else ['f', 'a', 'l', 's', 'e']
  | .num i => intToChars i
  | .str s => '"' :: s.data ++ ['"']
  | .arr [] => ['[', ']']
  | .arr (x :: xs) => '[' :: serElemsChain x xs
  | .obj [] => ['\x7b', '\x7d']
  | .obj (kv :: kvs) => '\x7b' :: serMembersChain kv kvs
termination_by v => sizeOf v

/-- Comma-separated serialized array elements, plus the closing bracket. -/
def serElemsChain : JsonValue → List JsonValue → List Char
  | x, [] => serChars x ++ [']']
  | x, y :: ys => serChars x ++ ',' :: serElemsChain y ys
termination_by x xs => sizeOf x + sizeOf xs

/-- One serialized object member `"key":value`. -/
def serMemberOne : String × JsonValue → List Char
  | (k, v) => '"' :: k.data ++ '"' :: ':' :: serChars v
termination_by kv => sizeOf kv

/-- Comma-separated serialized object members, plus the closing brace. -/
def serMembersChain : String × JsonValue → List (String × JsonValue) → List Char
  | kv, [] => serMemberOne kv ++ ['\x7d']
  | kv, kv2 :: kvs => serMemberOne kv ++ ',' :: serMembersChain kv2 kvs
termination_by kv kvs => sizeOf kv + sizeOf kvs

end

/-- `getJSON(obj)`: `JSON.stringify(obj)`. -/
def getJSON (obj : JsonValue) : String := String.mk (serChars obj)

/-- Greedy decimal-digit consumption with accumulator. -/
def parseDigits : List Char → Nat → Nat × List Char
  | [], acc => (acc, [])
  | c :: rest, acc =>
    if c.isDigit then parseDigits rest (acc * 10 + (c.toNat - 48))
    else (acc, c :: rest)

/-- Body of a JSON string after the opening quote: the characters up to the
closing quote. Escape sequences and unterminated strings are rejected. -/
def parseStrBody : List Char → Option (List Char × List Char)
  | [] => none
  | c :: rest =>
    if c = '"' then some ([], rest)
    else if c = '\\' then none
    else (parseStrBody rest).map (fun p => (c :: p.1, p.2))

mutual

/-- One JSON value at the head of the input; returns it with the unconsumed
remainder. The fuel only ever needs to cover the consumed characters. -/
def parseVal : Nat → List Char → Except String (JsonValue × List Char)
  | 0, _ => .error "Fuel exhausted"
  | _ + 1, [] => .error "Unexpected end of JSON input"
  | fuel + 1, c :: rest =>
    if c = 'n' then
      match rest with
      | 'u' :: 'l' :: 'l' :: r => .ok (.null, r)
      | _ => .error "Unexpected token"
    else if c = 't' then
      match rest with
      | 'r' :: 'u' :: 'e' :: r => .ok (.bool true, r)
      | _ => .error "Unexpected token"
    else if c = 'f' then
      match rest with
      | 'a' :: 'l' :: 's' :: 'e' :: r => .ok (.bool false, r)
      | _ => .error "Unexpected token"
    else if c = '"' then
      match parseStrBody rest with
      | some (s, r) => .ok (.str (String.mk s), r)
      | none => .error "Unexpected token"
    else if c = '-' then
      match rest with
      | d :: r2 =>
        if d.isDigit then
          let p := parseDigits r2 (d.toNat - 48)
          .ok (.num (-(p.1 : Int)), p.2)
        else .error "Unexpected token"
      | [] => .error "Unexpected token"
    else if c.isDigit then
      let p := parseDigits rest (c.toNat - 48)
      .ok (.num (p.1 : Int), p.2)
    else if c = '[' then
      if rest.headD ' ' = ']' then .ok (.arr [], rest.tail)
      else
        match parseElems fuel rest with
        | .ok (xs, r) => .ok (.arr xs, r)
        | .error e => .error e
    else if c = '\x7b' then
      if rest.headD ' ' = '\x7d' then .ok (.obj [], rest.tail)
      else
        match parseMembers fuel rest with
        | .ok (kvs, r) => .ok (.obj kvs, r)
        | .error e => .error e
    else .error "Unexpected token"

/-- One or more comma-separated array elements, then the closing bracket. -/
def parseElems : Nat → List Char → Except String (List JsonValue × List Char)
  | 0, _ => .error "Fuel exhausted"
  | fuel + 1, input =>
    match parseVal fuel input with
    | .error e => .error e
    | .ok (v, r) =>
      match r with
      | ',' :: r2 =>
        match parseElems fuel r2 with
        | .ok (vs, r3) => .ok (v :: vs, r3)
        | .error e => .error e
      | ']' :: r2 => .ok ([v], r2)
      | _ => .error "Unexpected token"

/-- One or more comma-separated `"key":value` members, then the closing
brace. -/
def parseMembers : Nat → List Char →
    Except String (List (String × JsonValue) × List Char)
  | 0, _ => .error "Fuel exhausted"
  | fuel + 1, input =>
    match input with
    | '"' :: r0 =>
      match parseStrBody r0 with
      | none => .error "Unexpected token"
      | some (k, r1) =>
        match r1 with
        | ':' :: r2 =>
          match parseVal fuel r2 with
          | .error e => .error e
          | .ok (v, r3) =>
            match r3 with
            | ',' :: r4 =>
              match parseMembers fuel r4 with
              | .ok (kvs, r5) => .ok ((String.mk k, v) :: kvs, r5)
              | .error e => .error e
            | '\x7d' :: r4 => .ok ([(String.mk k, v)], r4)
            | _ => .error "Unexpected token"
        | _ => .error "Unexpected token"
    | _ => .error "Unexpected token"

end

/-- `JSON.parse`: parse the whole text as one JSON value, rejecting trailing
characters. The input length suffices as fuel. -/
def JSONparse (json : String) : Except String JsonValue :=
  match parseVal json.length json.data with
  | .error e => .error e
  | .ok (v, []) => .ok v
  | .ok (_, _ :: _) => .error "Unexpected token after JSON value"

/-- The error `Object.setPrototypeOf` throws when its first argument is the
result of parsing the text "null". -/
def protoNullMsg : String :=
  "TypeError: Object.setPrototypeOf called on null or undefined"

/-- A parsed value after the `Object.setPrototypeOf(res, proto)` step of
`fromJSON`: parsed objects and arrays carry the new prototype `proto`;
primitives pass through the builtin unchanged, keeping their own behaviour. -/
inductive ProtoVal (π : Type) where
  | objP : List (String × JsonValue) → π → ProtoVal π
  | arrP : List JsonValue → π → ProtoVal π
  | primP : JsonValue → ProtoVal π
deriving Repr

/-- `Object.setPrototypeOf(v, proto)` per the ECMAScript builtin: throws a
TypeError on `null`, reassigns the prototype of objects and arrays, and
returns number/string/boolean primitives unchanged. -/
def setPrototypeOf {π : Type} (v : JsonValue) (proto : π) :
    Except String (ProtoVal π) :=
  match v with
  | .null => .error protoNullMsg
  | .obj kvs => .ok (.objP kvs proto)
  | .arr xs => .ok (.arrP xs proto)
  | other => .ok (.primP other)

/-- `fromJSON(proto, json)`: `JSON.parse` then `Object.setPrototypeOf`. -/
def fromJSON {π : Type} (proto : π) (json : String) :
    Except String (ProtoVal π) :=
  match JSONparse json with
  | .error e => .error e
  | .ok res => setPrototypeOf res proto

/-! ## Round-trip lemmas for the JSON model -/

/-- Whether the input starts with a decimal digit (greedy number parsing
would consume it). -/
def digitHead : List Char → Bool
  | [] => false
  | c :: _ => c.isDigit

/-- The accumulator step of decimal parsing. -/
def digitStep (a : Nat) (c : Char) : Nat := a * 10 + (c.toNat - 48)

theorem digitChar_isDigit (k : Nat) : (digitChar k).isDigit = true := by
  rcases k with _ | _ | _ | _ | _ | _ | _ | _ | _ | k <;> rfl

theorem digitChar_val (k : Nat) (h : k < 10) : (digitChar k).toNat - 48 = k := by
  interval_cases k <;> rfl

theorem parseDigits_append (ds : List Char) (rest : List Char) (acc : Nat)
    (hds : ∀ c ∈ ds, c.isDigit = true) (hrest : digitHead rest = false) :
    parseDigits (ds ++ rest) acc = (ds.foldl digitStep acc, rest) := by
  induction ds generalizing acc with
  | nil =>
    cases rest with
    | nil => rfl
    | cons c r =>
      simp only [digitHead] at hrest
      simp [parseDigits, hrest]
  | cons c ds ih =>
    have hc : c.isDigit = true := hds c (by simp)
    simp only [List.cons_append, parseDigits, hc, if_true, List.foldl_cons]
    exact ih _ (fun d hd => hds d (by simp [hd]))

theorem natDigitsRev_digits (n : Nat) : ∀ c ∈ natDigitsRev n, c.isDigit = true := by
  induction n using Nat.strong_induction_on with
  | _ n ih =>
    rcases Nat.eq_zero_or_pos n with hn | hn
    · subst hn; rw [natDigitsRev]; simp
    · rw [natDigitsRev]
      simp only [Nat.pos_iff_ne_zero.mp hn, dite_false]
      intro c hc
      rcases List.mem_cons.mp hc with h | h
      · subst h; exact digitChar_isDigit _
      · exact ih (n / 10) (Nat.div_lt_self hn (by decide)) c h

theorem natDigitsRev_foldl (n : Nat) :
    (natDigitsRev n).reverse.foldl digitStep 0 = n := by
  induction n using Nat.strong_induction_on with
  | _ n ih =>
    rcases Nat.eq_zero_or_pos n with hn | hn
    · subst hn; rw [natDigitsRev]; simp
    · rw [natDigitsRev]
      simp only [Nat.pos_iff_ne_zero.mp hn, dite_false, List.reverse_cons,
        List.foldl_append, List.foldl_cons, List.foldl_nil]
      rw [ih (n / 10) (Nat.div_lt_self hn (by decide))]
      simp only [digitStep, digitChar_val (n % 10) (Nat.mod_lt n (by decide))]
      omega

theorem natToChars_ne_nil (n : Nat) : natToChars n ≠ [] := by
  unfold natToChars
  rcases Nat.eq_zero_or_pos n with hn | hn
  · simp [hn]
  · have : natDigitsRev n ≠ [] := by
      rw [natDigitsRev]
      simp [Nat.pos_iff_ne_zero.mp hn]
    simp [Nat.pos_iff_ne_zero.mp hn, this]

theorem natToChars_digits (n : Nat) : ∀ c ∈ natToChars n, c.isDigit = true := by
  unfold natToChars
  rcases Nat.eq_zero_or_pos n with hn | hn
  · simp [hn]
  · simp only [Nat.pos_iff_ne_zero.mp hn, if_false, List.mem_reverse]
    exact natDigitsRev_digits n

theorem natToChars_foldl (n : Nat) :
    (natToChars n).foldl digitStep 0 = n := by
  unfold natToChars
  rcases Nat.eq_zero_or_pos n with hn | hn
  · subst hn; rfl
  · simp only [Nat.pos_iff_ne_zero.mp hn, if_false]
    exact natDigitsRev_foldl n

theorem parseStrBody_append (l rest : List Char)
    (h : ∀ c ∈ l, c ≠ '"' ∧ c ≠ '\\') :
    parseStrBody (l ++ '"' :: rest) = some (l, rest) := by
  induction l with
  | nil => rfl
  | cons c l ih =>
    have hc := h c (by simp)
    simp only [List.cons_append, parseStrBody, hc.1, hc.2, if_false,
      List.append_eq, ih (fun d hd => h d (by simp [hd])), Option.map_some']

theorem isDigit_ne_special (c : Char) (h : c.isDigit = true) :
    c ≠ 'n' ∧ c ≠ 't' ∧ c ≠ 'f' ∧ c ≠ '"' ∧ c ≠ '-' ∧ c ≠ '[' ∧ c ≠ '\x7b'
      ∧ c ≠ ']' ∧ c ≠ ',' ∧ c ≠ '\x7d' ∧ c ≠ ':' := by
  refine ⟨?_, ?_, ?_, ?_, ?_, ?_, ?_, ?_, ?_, ?_, ?_⟩ <;>
    (intro hc; subst hc; exact absurd h (by decide))

theorem serChars_head (v : JsonValue) :
    ∃ c t, serChars v = c :: t ∧ c ≠ ']' := by
  cases v with
  | null => rw [serChars]; exact ⟨'n', _, rfl, by decide⟩
  | bool b => cases b with
    | true => rw [serChars]; exact ⟨'t', _, rfl, by decide⟩
    | false => rw [serChars]; exact ⟨'f', _, rfl, by decide⟩
  | num i =>
    rw [serChars]
    unfold intToChars
    by_cases hi : i < 0
    · rw [if_pos hi]
      exact ⟨'-', _, rfl, by decide⟩
    · rw [if_neg hi]
      rcases hne : natToChars i.natAbs with _ | ⟨c, t⟩
      · exact absurd hne (natToChars_ne_nil _)
      · refine ⟨c, t, rfl, ?_⟩
        have hc : c.isDigit = true := natToChars_digits _ c (by rw [hne]; simp)
        exact (isDigit_ne_special c hc).2.2.2.2.2.2.2.1
  | str s => rw [serChars]; exact ⟨'"', _, rfl, by decide⟩
  | arr xs => cases xs with
    | nil => rw [serChars]; exact ⟨'[', _, rfl, by decide⟩
    | cons x xs => rw [serChars]; exact ⟨'[', _, rfl, by decide⟩
  | obj kvs => cases kvs with
    | nil => rw [serChars]; exact ⟨'\x7b', _, rfl, by decide⟩
    | cons kv kvs => rw [serChars]; exact ⟨'\x7b', _, rfl, by decide⟩

/-- JSON-representable values within the model's restrictions: every string
(including object keys) needs no JSON escaping. This is exactly the domain on
which the embedded serializer emits valid JSON text. -/
inductive WF : JsonValue → Prop where
  | null : WF .null
  | bool (b : Bool) : WF (.bool b)
  | num (i : Int) : WF (.num i)
  | str (s : String) (h : ∀ c ∈ s.data, c ≠ '"' ∧ c ≠ '\\') : WF (.str s)
  | arr (xs : List JsonValue) (h : ∀ x ∈ xs, WF x) : WF (.arr xs)
  | obj (kvs : List (String × JsonValue))
      (hk : ∀ kv ∈ kvs, ∀ c ∈ (Prod.fst kv).data, c ≠ '"' ∧ c ≠ '\\')
      (hv : ∀ kv ∈ kvs, WF kv.2) : WF (.obj kvs)

theorem WF.str_esc {s : String} (h : WF (.str s)) :
    ∀ c ∈ s.data, c ≠ '"' ∧ c ≠ '\\' := by
  cases h with | str _ h => exact h

theorem WF.arr_mem {xs : List JsonValue} (h : WF (.arr xs)) :
    ∀ x ∈ xs, WF x := by
  cases h with | arr _ h => exact h

theorem WF.obj_key {kvs : List (String × JsonValue)} (h : WF (.obj kvs)) :
    ∀ kv ∈ kvs, ∀ c ∈ (Prod.fst kv).data, c ≠ '"' ∧ c ≠ '\\' := by
  cases h with | obj _ hk _ => exact hk

theorem WF.obj_val {kvs : List (String × JsonValue)} (h : WF (.obj kvs)) :
    ∀ kv ∈ kvs, WF kv.2 := by
  cases h with | obj _ _ hv => exact hv

theorem serChars_length_pos (v : JsonValue) : 1 ≤ (serChars v).length := by
  obtain ⟨c, t, hct, _⟩ := serChars_head v
  rw [hct]; simp

theorem parse_ser_aux (fuel : Nat) :
    (∀ v rest, WF v → digitHead rest = false → (serChars v).length ≤ fuel →
      parseVal fuel (serChars v ++ rest) = .ok (v, rest))
    ∧ (∀ x xs rest, WF x → (∀ y ∈ xs, WF y) → digitHead rest = false →
        (serElemsChain x xs).length ≤ fuel →
        parseElems fuel (serElemsChain x xs ++ rest) = .ok (x :: xs, rest))
    ∧ (∀ k v kvs rest, (∀ c ∈ (k : String).data, c ≠ '"' ∧ c ≠ '\\') → WF v →
        (∀ kv2 ∈ kvs, (∀ c ∈ (Prod.fst kv2).data, c ≠ '"' ∧ c ≠ '\\') ∧ WF kv2.2) →
        digitHead rest = false →
        (serMembersChain (k, v) kvs).length ≤ fuel →
        parseMembers fuel (serMembersChain (k, v) kvs ++ rest)
          = .ok ((k, v) :: kvs, rest)) := by
  induction fuel with
  | zero =>
    refine ⟨?_, ?_, ?_⟩
    · intro v rest _ _ hlen
      obtain ⟨c, t, hct, _⟩ := serChars_head v
      rw [hct] at hlen; simp at hlen
    · intro x xs rest _ _ _ hlen
      obtain ⟨c, t, hct, _⟩ := serChars_head x
      cases xs <;> rw [serElemsChain] at hlen <;> rw [hct] at hlen <;> simp at hlen
    · intro k v kvs rest _ _ _ _ hlen
      cases kvs <;> rw [serMembersChain] at hlen <;> rw [serMemberOne] at hlen <;>
        simp at hlen
  | succ fuel ih =>
    obtain ⟨ihP, ihQ, ihR⟩ := ih
    refine ⟨?_, ?_, ?_⟩
    · -- parseVal on one serialized value
      intro v rest hWF hdh hlen
      cases v with
      | null => rw [serChars]; simp [parseVal]
      | bool b => cases b <;> (rw [serChars]; simp [parseVal])
      | num i =>
        rw [serChars]
        unfold intToChars
        rcases hne : natToChars i.natAbs with _ | ⟨c, ds⟩
        · exact absurd hne (natToChars_ne_nil _)
        · have hcdig : c.isDigit = true := natToChars_digits _ c (by rw [hne]; simp)
          have hds : ∀ d ∈ ds, d.isDigit = true := fun d hd =>
            natToChars_digits _ d (by rw [hne]; simp [hd])
          have hfold : List.foldl digitStep (c.toNat - 48) ds = i.natAbs := by
            have h0 := natToChars_foldl i.natAbs
            rw [hne, List.foldl_cons] at h0
            have hz : digitStep 0 c = c.toNat - 48 := by simp [digitStep]
            rwa [hz] at h0
          have hne' := isDigit_ne_special c hcdig
          by_cases hi : i < 0
          · rw [if_pos hi]
            simp only [List.cons_append]
            simp [parseVal, hcdig, parseDigits_append ds rest _ hds hdh, hfold]
            rw [abs_of_neg hi, neg_neg]
          · rw [if_neg hi]
            simp only [List.cons_append]
            simp [parseVal, hne'.1, hne'.2.1, hne'.2.2.1, hne'.2.2.2.1,
              hne'.2.2.2.2.1, hcdig, parseDigits_append ds rest _ hds hdh, hfold]
            omega
      | str s =>
        have hesc := hWF.str_esc
        obtain ⟨l⟩ := s
        rw [serChars]
        simp only [List.cons_append, List.append_assoc, List.singleton_append]
        simp [parseVal, parseStrBody_append l rest hesc]
      | arr xs =>
        cases xs with
        | nil => rw [serChars]; simp [parseVal]
        | cons x xs =>
          rw [serChars]
          have hx : WF x := hWF.arr_mem x (by simp)
          have hxs : ∀ y ∈ xs, WF y := fun y hy => hWF.arr_mem y (by simp [hy])
          obtain ⟨c, t, hct, hcne⟩ := serChars_head x
          have hlen' : (serElemsChain x xs).length ≤ fuel := by
            rw [serChars] at hlen; simp at hlen; omega
          have hh : (serElemsChain x xs).head? = some c := by
            cases xs <;> rw [serElemsChain] <;> rw [hct] <;> simp
          simp [parseVal, hh, hcne, ihQ x xs rest hx hxs hdh hlen']
      | obj kvs =>
        cases kvs with
        | nil => rw [serChars]; simp [parseVal]
        | cons kv kvs =>
          rw [serChars]
          obtain ⟨k, v⟩ := kv
          have hk := hWF.obj_key (k, v) (by simp)
          have hv : WF v := hWF.obj_val (k, v) (by simp)
          have hkvs : ∀ kv2 ∈ kvs,
              (∀ c ∈ (Prod.fst kv2).data, c ≠ '"' ∧ c ≠ '\\') ∧ WF kv2.2 :=
            fun kv2 h2 => ⟨hWF.obj_key kv2 (by simp [h2]), hWF.obj_val kv2 (by simp [h2])⟩
          have hlen' : (serMembersChain (k, v) kvs).length ≤ fuel := by
            rw [serChars] at hlen; simp at hlen; omega
          have hh : (serMembersChain (k, v) kvs).head? = some '"' := by
            cases kvs <;> rw [serMembersChain] <;> rw [serMemberOne] <;> simp
          simp [parseVal, hh, ihR k v kvs rest hk hv hkvs hdh hlen']
    · -- parseElems on a serialized element chain
      intro x xs rest hx hxs hdh hlen
      cases xs with
      | nil =>
        rw [serElemsChain]
        have hlen' : (serChars x).length ≤ fuel := by
          rw [serElemsChain] at hlen; simp at hlen; omega
        simp only [List.append_assoc, List.singleton_append]
        simp [parseElems, ihP x (']' :: rest) hx (by rfl) hlen']
      | cons y ys =>
        rw [serElemsChain]
        have hlx : (serChars x).length ≤ fuel := by
          rw [serElemsChain] at hlen; simp at hlen; omega
        have hlc : (serElemsChain y ys).length ≤ fuel := by
          have hpos := serChars_length_pos x
          rw [serElemsChain] at hlen; simp at hlen; omega
        have hys : ∀ z ∈ ys, WF z := fun z hz => hxs z (by simp [hz])
        simp only [List.append_assoc, List.cons_append]
        simp [parseElems,
          ihP x (',' :: (serElemsChain y ys ++ rest)) hx (by rfl) hlx,
          ihQ y ys rest (hxs y (by simp)) hys hdh hlc]
    · -- parseMembers on a serialized member chain
      intro k v kvs rest hk hv hkvs hdh hlen
      obtain ⟨kl⟩ := k
      cases kvs with
      | nil =>
        rw [serMembersChain, serMemberOne]
        have hlenv : (serChars v).length ≤ fuel := by
          rw [serMembersChain, serMemberOne] at hlen; simp at hlen; omega
        simp only [List.append_assoc, List.cons_append, List.singleton_append]
        simp [parseMembers, parseStrBody_append kl _ hk,
          ihP v ('\x7d' :: rest) hv (by rfl) hlenv]
      | cons kv2 kvs2 =>
        rw [serMembersChain, serMemberOne]
        obtain ⟨k2, v2⟩ := kv2
        have hlenv : (serChars v).length ≤ fuel := by
          rw [serMembersChain, serMemberOne] at hlen; simp at hlen; omega
        have hlen2 : (serMembersChain (k2, v2) kvs2).length ≤ fuel := by
          rw [serMembersChain, serMemberOne] at hlen; simp at hlen; omega
        have hk2 := (hkvs (k2, v2) (by simp)).1
        have hv2 := (hkvs (k2, v2) (by simp)).2
        have hkvs2 : ∀ kv3 ∈ kvs2,
            (∀ c ∈ (Prod.fst kv3).data, c ≠ '"' ∧ c ≠ '\\') ∧ WF kv3.2 :=
          fun kv3 h3 => hkvs kv3 (by simp [h3])
        simp only [List.append_assoc, List.cons_append]
        simp [parseMembers, parseStrBody_append kl _ hk,
          ihP v (',' :: (serMembersChain (k2, v2) kvs2 ++ rest)) hv (by rfl) hlenv,
          ihR k2 v2 kvs2 rest hk2 hv2 hkvs2 hdh hlen2]

/-- Parsing inverts serialization on well-formed values: the round-trip fact
underlying the JSON bridge. -/
theorem JSONparse_getJSON (v : JsonValue) (h : WF v) :
    JSONparse (getJSON v) = .ok v := by
  have hmain := (parse_ser_aux (serChars v).length).1 v [] h rfl (le_refl _)
  rw [List.append_nil] at hmain
  have hdata : (getJSON v).data = serChars v := rfl
  have hlen : (getJSON v).length = (serChars v).length := rfl
  unfold JSONparse
  rw [hdata, hlen, hmain]

/-- C2 counterexample: the text "null" is well-formed JSON (it parses), yet
`fromJSON` raises an error on it — `Object.setPrototypeOf` throws on the
parsed `null` — so "fails if and only if the text is not well-formed JSON"
is false as stated. -/
theorem fromJSON_error_on_wellformed_null :
    fromJSON (0 : Nat) "null" = .error protoNullMsg
      ∧ JSONparse "null" = .ok JsonValue.null := ⟨rfl, rfl⟩

/-- C2 amended: `fromJSON(T, s)` raises an error iff `s` is not well-formed
JSON or `s` parses to JSON `null` (whose prototype reassignment throws); on
any other well-formed JSON it never fails, whatever the parsed fields are —
the only error sources are the parse and the `null` prototype reassignment. -/
theorem fromJSON_error_iff_parse_error_or_null {π : Type} (T : π) (s : String) :
    (∃ e, fromJSON T s = .error e) ↔
      ((∃ e, JSONparse s = .error e) ∨ JSONparse s = .ok JsonValue.null) := by
  unfold fromJSON
  cases hp : JSONparse s with
  | error e => simp
  | ok v => cases v <;> simp [setPrototypeOf, protoNullMsg]

/-- C3 counterexample: the round-trip claim fails at `x = null` (deserialize
throws instead of succeeding) and at the primitive `x = 42` (deserialize
succeeds and preserves the value, but the result does not carry the template's
capability set — `setPrototypeOf` leaves primitives untouched). -/
theorem roundtrip_claim_false_at_null_and_primitive :
    fromJSON (0 : Nat) (getJSON JsonValue.null) = .error protoNullMsg
      ∧ fromJSON (0 : Nat) (getJSON (JsonValue.num 42))
          = .ok (ProtoVal.primP (JsonValue.num 42)) := by
  constructor
  · have h : getJSON JsonValue.null = "null" := by
      simp [getJSON, serChars]
    rw [h]
    rfl
  · have h : getJSON (JsonValue.num 42) = "42" := by
      simp [getJSON, serChars, intToChars, natToChars, natDigitsRev, digitChar]
    rw [h]
    rfl

/-- C3 amended: for every plain data value `x` in the model (strings needing
no JSON escaping), `deserialize(T, serialize(x))` yields a value structurally
equal to `x` with T's capability set when `x` is an object or array; a
primitive `x` round-trips structurally but keeps its own capabilities; and
`x = null` raises a TypeError instead. -/
theorem roundtrip_structural_with_proto {π : Type} (T : π) (x : JsonValue)
    (hx : WF x) :
    fromJSON T (getJSON x)
      = match x with
        | JsonValue.null => .error protoNullMsg
        | JsonValue.obj kvs => .ok (ProtoVal.objP kvs T)
        | JsonValue.arr xs => .ok (ProtoVal.arrP xs T)
        | v => .ok (ProtoVal.primP v) := by
  unfold fromJSON
  rw [JSONparse_getJSON x hx]
  cases x <;> rfl

/-- Witness for C3's amended claim at a concrete object. -/
theorem roundtrip_structural_with_proto_witness :
    fromJSON (0 : Nat) (getJSON (JsonValue.obj [("a", JsonValue.num 1)]))
      = .ok (ProtoVal.objP [("a", JsonValue.num 1)] 0) :=
  roundtrip_structural_with_proto 0 (JsonValue.obj [("a", JsonValue.num 1)])
    (WF.obj _ (by intro kv hkv; simp at hkv; subst hkv; decide)
      (by intro kv hkv; simp at hkv; subst hkv; exact WF.num 1))
